import Mathlib

/-
Verification of the jupyter-mcp-tools front-end extension (src/src/index.ts).

The development shallowly embeds the core of the extension:

- safeSerialize (index.ts lines 22-70): JS values are modelled by JSVal,
  with objects and arrays living in an explicit heap (a list of heap
  objects addressed by position) so that shared and cyclic structures are
  representable by reference, exactly as JS object identity behaves.
  The mutable WeakSet named seen is modelled as an explicit list of heap
  addresses threaded through the recursion in evaluation order, since the
  source passes one shared, add-only WeakSet through every recursive call.
  The source bounds recursion by the check currentDepth > maxDepth made
  before every recursive branch; the embedding carries the equivalent
  fuel value maxDepth + 1 - currentDepth, which is 0 exactly when
  currentDepth > maxDepth and decreases by 1 exactly when the source
  recurses with currentDepth + 1.

- the tool id substitutions (index.ts lines 166 and 318) on strings,

- the execution dispatcher applyToolLocal / applyToolFromServer
  (index.ts lines 241-277 and 308-358) over an abstract host command
  registry (listCommands / hasCommand / execute), and

- the MCPToolsWebSocket connection manager (index.ts lines 75-382) as a
  state machine driven by events: caller API calls (connect, close,
  sendMessage), socket events (onopen, onmessage, onerror, onclose) and
  the firing of a reconnect timer scheduled by attemptReconnect.
-/

/-- JS values as seen by safeSerialize. Objects and arrays are heap
references (JS identity), so shared and cyclic data are expressible.
Values whose typeof is neither a primitive, an array nor an object
(functions and similar) are modelled by func carrying the result of
String(obj), or none when that conversion itself throws. -/
inductive JSVal where
  | null
  | undef
  | bool (b : Bool)
  | num (n : Int)
  | str (s : String)
  | ref (r : Nat)
  | func (toStr : Option String)

/-- A heap cell: either a JS array or a plain object with ordered keys
(Object.keys insertion order). -/
inductive HeapObj where
  | arr (elems : List JSVal)
  | obj (fields : List (String × JSVal))

/-- The JS heap: cell r is the object with identity r. -/
def Heap : Type := List HeapObj

/-- Output of safeSerialize: a JSON-safe tree, no references left. -/
inductive SVal where
  | null
  | undef
  | bool (b : Bool)
  | num (n : Int)
  | str (s : String)
  | arr (xs : List SVal)
  | obj (fields : List (String × SVal))

/-- Serializes the members of an array in order, threading the shared
seen set through the recursion, as obj.slice(0, 100).map(...) does with
the one mutable WeakSet (index.ts line 39). -/
def serList (f : JSVal → List Nat → SVal × List Nat) :
    List JSVal → List Nat → List SVal × List Nat
  | [], seen => ([], seen)
  | x :: xs, seen =>
    let p := f x seen
    let q := serList f xs p.2
    (p.1 :: q.1, q.2)

/-- Serializes the fields of an object in key order, threading the shared
seen set, as the for loop over Object.keys(obj).slice(0, 100) does
(index.ts lines 51-59). The try/catch around each field does not fire in
the model because the embedded serializer is total. -/
def serFields (f : JSVal → List Nat → SVal × List Nat) :
    List (String × JSVal) → List Nat → List (String × SVal) × List Nat
  | [], seen => ([], seen)
  | (k, v) :: xs, seen =>
    let p := f v seen
    let q := serFields f xs p.2
    ((k, p.1) :: q.1, q.2)

/-- safeSerialize (index.ts lines 22-70) with the remaining depth budget
maxDepth + 1 - currentDepth passed as fuel. In source order:
primitives pass through first (lines 24-30, hence also at fuel 0);
then the depth check currentDepth > maxDepth, i.e. fuel = 0 (lines 33-35);
then arrays, truncated to 100 elements, members at depth + 1, with no
seen check and no seen insertion (lines 38-40);
then objects: the seen check and insertion, keys truncated to 100, field
values at depth + 1 (lines 43-61); the getD for a dangling reference is
unreachable for heaps produced by a JS runtime;
finally the String(obj) fallback with its try/catch (lines 65-69). -/
def serialize (heap : Heap) : Nat → JSVal → List Nat → SVal × List Nat
  | _, .null, seen => (.null, seen)
  | _, .undef, seen => (.undef, seen)
  | _, .bool b, seen => (.bool b, seen)
  | _, .num n, seen => (.num n, seen)
  | _, .str s, seen => (.str s, seen)
  | 0, .ref _, seen => (.str "<max depth reached>", seen)
  | 0, .func _, seen => (.str "<max depth reached>", seen)
  | fuel + 1, .ref r, seen =>
    match (heap.get? r).getD (.obj []) with
    | .arr elems =>
      let q := serList (serialize heap fuel) (elems.take 100) seen
      (.arr q.1, q.2)
    | .obj fields =>
      if r ∈ seen then (.str "<circular reference>", seen)
      else
        let q := serFields (serialize heap fuel) (fields.take 100) (r :: seen)
        (.obj q.1, q.2)
  | _ + 1, .func os, seen =>
    match os with
    | some s => (.str s, seen)
    | none => (.str "<unserializable>", seen)

/-- safeSerialize with the source signature: maxDepth (default 3 at the
call sites that omit it), currentDepth (default 0) and the seen set
(default empty). The fuel maxDepth + 1 - currentDepth is 0 exactly when
currentDepth > maxDepth. -/
def safeSerialize (heap : Heap) (obj : JSVal) (maxDepth : Nat)
    (currentDepth : Nat) (seen : List Nat) : SVal × List Nat :=
  serialize heap (maxDepth + 1 - currentDepth) obj seen

/-- True exactly for values handled by the primitive fast paths of
safeSerialize (index.ts lines 24-30). -/
def isPrimitive : JSVal → Bool
  | .null => true
  | .undef => true
  | .bool _ => true
  | .num _ => true
  | .str _ => true
  | .ref _ => false
  | .func _ => false

/-- Forward tool id derivation (index.ts line 166): every colon in the
host command id is replaced by a space, commandId.replace(/:/g, ' '). -/
def forwardId (s : String) : String :=
  String.mk (s.data.map (fun c => if c = ':' then ' ' else c))

/-- Reverse substitution (index.ts line 318): every space in the tool id
is replaced by a colon, toolId.replace(/ /g, ':'). -/
def reverseId (s : String) : String :=
  String.mk (s.data.map (fun c => if c = ' ' then ':' else c))

/-- Outcome of app.commands.execute: a result value in some heap, or a
thrown/rejected error already stringified by String(error). -/
inductive ExecOutcome where
  | ok (heap : Heap) (v : JSVal)
  | thrown (msg : String)

/-- The ambient JupyterLab command registry consumed by the dispatcher:
the list of registered command ids (listCommands / hasCommand) and the
behaviour of execute on each id and argument object. -/
structure CommandRegistry where
  commandIds : List String
  exec : String → JSVal → ExecOutcome

/-- The tool ids registerTools derives for the catalog (index.ts lines
157-177): one tool per registered command, its id forwardId commandId. -/
def catalogIds (reg : CommandRegistry) : List String :=
  reg.commandIds.map forwardId

/-- One widget message-log entry produced by this.widget.addMessage
(direction, message type, payload fields). -/
structure LocalLogEntry where
  direction : String
  msgType : String
  tool_id : String
  parameters : JSVal
  result : Option SVal
  error : Option String
  success : Bool

/-- The tool_result envelope built by applyToolFromServer (index.ts
lines 328-334, 338-344, 349-355). -/
structure ToolResult where
  type : String
  tool_id : String
  execution_id : Option String
  success : Bool
  result : Option SVal
  error : Option String

/-- applyToolLocal (index.ts lines 241-277): the tool id received from
the widget is passed to hasCommand and execute verbatim, with no reverse
substitution; the result is sanitized by safeSerialize(result, 2) and an
addMessage entry of type local_execute is logged in every branch. -/
def applyToolLocal (reg : CommandRegistry) (toolId : String)
    (params : JSVal) : LocalLogEntry :=
  if toolId ∈ reg.commandIds then
    match reg.exec toolId params with
    | .ok heap v =>
      ⟨"sent", "local_execute", toolId, params,
        some (safeSerialize heap v 2 0 []).1, none, true⟩
    | .thrown e =>
      ⟨"sent", "local_execute", toolId, params, none, some e, false⟩
  else
    ⟨"sent", "local_execute", toolId, params, none,
      some ("Command not found: " ++ toolId), false⟩

/-- applyToolFromServer (index.ts lines 308-358): the space-separated
tool id is converted back to the colon-separated command id (line 318),
then either executed (result sanitized by safeSerialize(result, 2)) or
answered with a Command-not-found failure; every branch, including the
catch for a throwing command, hands a tool_result envelope carrying the
peer-supplied execution id to sendMessage. -/
def applyToolFromServer (reg : CommandRegistry) (toolId : String)
    (params : JSVal) (executionId : Option String) : ToolResult :=
  let commandId := reverseId toolId
  if commandId ∈ reg.commandIds then
    match reg.exec commandId params with
    | .ok heap v =>
      ⟨"tool_result", toolId, executionId, true,
        some (safeSerialize heap v 2 0 []).1, none⟩
    | .thrown e =>
      ⟨"tool_result", toolId, executionId, false, none, some e⟩
  else
    ⟨"tool_result", toolId, executionId, false, none,
      some ("Command not found: " ++ commandId)⟩

/-- readyState of the browser WebSocket object. -/
inductive ReadyState where
  | connecting
  | opened
  | closing
  | closed
deriving DecidableEq

/-- State of the MCPToolsWebSocket manager (index.ts lines 75-382).
hasWs models this.ws !== null; wsReady the readyState of the socket the
manager last created; reconnectAttempts and pendingTimers the retry
counter and the number of setTimeout reconnect callbacks scheduled but
not yet fired; scheduledCount is a history variable counting every
reconnect ever scheduled by attemptReconnect; sent collects payloads
actually transmitted by this.ws.send, logged the addMessage log of sent
messages, errors the console.error log. -/
structure MgrState where
  hasWs : Bool
  wsReady : ReadyState
  reconnectAttempts : Nat
  pendingTimers : Nat
  scheduledCount : Nat
  sent : List String
  logged : List String
  errors : List String

/-- this.maxReconnectAttempts (index.ts line 80). -/
def maxReconnectAttempts : Nat := 5

/-- this.reconnectDelay in milliseconds (index.ts line 81). -/
def reconnectDelay : Nat := 2000

/-- attemptReconnect (index.ts lines 134-144): below the budget it
increments the counter and schedules a connect() after reconnectDelay;
at the budget it only logs exhaustion. -/
def attemptReconnect (s : MgrState) : MgrState :=
  if s.reconnectAttempts < maxReconnectAttempts then
    { s with
      reconnectAttempts := s.reconnectAttempts + 1,
      pendingTimers := s.pendingTimers + 1,
      scheduledCount := s.scheduledCount + 1 }
  else
    { s with errors := "Max reconnection attempts reached" :: s.errors }

/-- connect() (index.ts lines 101-129): unconditionally creates a fresh
WebSocket (readyState CONNECTING) and installs the handlers. -/
def connectCall (s : MgrState) : MgrState :=
  { s with hasWs := true, wsReady := .connecting }

/-- sendMessage (index.ts lines 363-371): transmits and logs the message
only when this.ws is non-null and its readyState is OPEN; otherwise it
only logs a console error, dropping the message. It never throws. -/
def sendMessage (s : MgrState) (m : String) : MgrState :=
  if s.hasWs = true ∧ s.wsReady = .opened then
    { s with sent := m :: s.sent, logged := m :: s.logged }
  else
    { s with errors := "WebSocket is not connected" :: s.errors }

/-- close() (index.ts lines 376-381): when a socket exists, calls
ws.close() (readyState becomes CLOSING; the close event will fire later)
and nulls this.ws. Nothing cancels pending reconnect timers and nothing
marks the close as caller-initiated. -/
def close (s : MgrState) : MgrState :=
  if s.hasWs then { s with hasWs := false, wsReady := .closing } else s

/-- Events driving the manager: the socket open/close/error events, the
firing of one scheduled reconnect timer, and the caller API. onmessage
only dispatches to the handlers modelled separately, so it is omitted. -/
inductive WsEvent where
  | sockOpen
  | sockClose
  | sockError
  | timerFire
  | callConnect
  | callClose
  | callSend (m : String)
deriving DecidableEq

/-- One transition of the manager. sockOpen runs the onopen handler
(index.ts lines 108-115): it resets reconnectAttempts to 0. sockClose
runs the onclose handler (lines 125-128): it calls attemptReconnect
unconditionally, whether or not the closed socket is still this.ws,
because the handler closure never consults this.ws. timerFire consumes
one scheduled timer and runs connect() (line 140). The readyState
updates model the browser side for the current socket. -/
def step (s : MgrState) : WsEvent → MgrState
  | .sockOpen =>
    { s with
      wsReady := if s.hasWs then .opened else s.wsReady,
      reconnectAttempts := 0 }
  | .sockClose =>
    attemptReconnect
      { s with wsReady := if s.hasWs then .closed else s.wsReady }
  | .sockError => { s with errors := "WebSocket error" :: s.errors }
  | .timerFire =>
    match s.pendingTimers with
    | 0 => s
    | n + 1 => connectCall { s with pendingTimers := n }
  | .callConnect => connectCall s
  | .callClose => close s
  | .callSend m => sendMessage s m

/-- Runs the manager over a sequence of events. -/
def runEvents (s : MgrState) : List WsEvent → MgrState
  | [] => s
  | e :: es => runEvents (step s e) es

theorem serialize_null (heap : Heap) (fuel : Nat) (seen : List Nat) :
    serialize heap fuel .null seen = (.null, seen) := by
  cases fuel <;> rfl

theorem serialize_undef (heap : Heap) (fuel : Nat) (seen : List Nat) :
    serialize heap fuel .undef seen = (.undef, seen) := by
  cases fuel <;> rfl

theorem serialize_bool (heap : Heap) (fuel : Nat) (seen : List Nat) (b : Bool) :
    serialize heap fuel (.bool b) seen = (.bool b, seen) := by
  cases fuel <;> rfl

theorem serialize_num (heap : Heap) (fuel : Nat) (seen : List Nat) (n : Int) :
    serialize heap fuel (.num n) seen = (.num n, seen) := by
  cases fuel <;> rfl

theorem serialize_str (heap : Heap) (fuel : Nat) (seen : List Nat) (s : String) :
    serialize heap fuel (.str s) seen = (.str s, seen) := by
  cases fuel <;> rfl

theorem serialize_fuel0_nonprim (heap : Heap) (v : JSVal) (seen : List Nat)
    (h : isPrimitive v = false) :
    serialize heap 0 v seen = (.str "<max depth reached>", seen) := by
  cases v with
  | null => simp [isPrimitive] at h
  | undef => simp [isPrimitive] at h
  | bool b => simp [isPrimitive] at h
  | num n => simp [isPrimitive] at h
  | str s => simp [isPrimitive] at h
  | ref r => rfl
  | func os => rfl

theorem serFields_fst (f : JSVal → List Nat → SVal × List Nat)
    (l : List (String × JSVal)) (seen : List Nat) :
    ((serFields f l seen).1).map Prod.fst = l.map Prod.fst := by
  induction l generalizing seen with
  | nil => rfl
  | cons kv tl ih =>
    cases kv with
    | mk k v => simp only [serFields, List.map_cons, ih]

theorem serList_length (f : JSVal → List Nat → SVal × List Nat)
    (l : List JSVal) (seen : List Nat) :
    ((serList f l seen).1).length = l.length := by
  induction l generalizing seen with
  | nil => rfl
  | cons x tl ih => simp only [serList, List.length_cons, ih]

/-- C7: for every input value, including self-referential (cyclic)
structures, safeSerialize terminates and returns a value on every code
path; in particular it produces a value on a self-referential object
(caught by the seen set) and on a self-referential array (caught by the
depth check, since arrays are never added to the seen set). -/
theorem safeSerialize_total :
    (∀ (heap : Heap) (v : JSVal) (maxDepth currentDepth : Nat) (seen : List Nat),
      ∃ out, safeSerialize heap v maxDepth currentDepth seen = out)
    ∧ (safeSerialize [.obj [("self", .ref 0)]] (.ref 0) 3 0 []).1
        = .obj [("self", .str "<circular reference>")]
    ∧ (safeSerialize [.arr [.ref 0]] (.ref 0) 3 0 []).1
        = .arr [.arr [.arr [.arr [.str "<max depth reached>"]]]] :=
  ⟨fun _ _ _ _ _ => ⟨_, rfl⟩, rfl, rfl⟩

/-- C3 counterexample: heap cell 1 is one object reachable from cell 0
via the two disjoint sibling paths x and y; no path revisits it (the
heap is acyclic). The claim states both occurrences serialize in full,
but the computed output carries the circular-reference sentinel at the
second occurrence, which differs from the full serialization. -/
theorem sharedSibling_counterexample :
    (safeSerialize [.obj [("x", .ref 1), ("y", .ref 1)], .obj [("a", .num 1)]]
        (.ref 0) 3 0 []).1
      = .obj [("x", .obj [("a", .num 1)]), ("y", .str "<circular reference>")]
    ∧ SVal.str "<circular reference>" ≠ SVal.obj [("a", .num 1)] :=
  ⟨rfl, fun h => SVal.noConfusion h⟩

theorem serialize_ref_arr (heap : Heap) (fuel r : Nat) (seen : List Nat)
    (elems : List JSVal)
    (hobj : (heap.get? r).getD (.obj []) = .arr elems) :
    serialize heap (fuel + 1) (.ref r) seen
      = (.arr (serList (serialize heap fuel) (elems.take 100) seen).1,
         (serList (serialize heap fuel) (elems.take 100) seen).2) := by
  simp only [serialize, hobj]

theorem serialize_obj_seen (heap : Heap) (fuel r : Nat) (seen : List Nat)
    (fields : List (String × JSVal))
    (hobj : (heap.get? r).getD (.obj []) = .obj fields) (hr : r ∈ seen) :
    serialize heap (fuel + 1) (.ref r) seen
      = (.str "<circular reference>", seen) := by
  simp only [serialize, hobj]
  rw [if_pos hr]

theorem serialize_obj_first (heap : Heap) (fuel r : Nat) (seen : List Nat)
    (fields : List (String × JSVal))
    (hobj : (heap.get? r).getD (.obj []) = .obj fields) (hr : r ∉ seen) :
    serialize heap (fuel + 1) (.ref r) seen
      = (.obj (serFields (serialize heap fuel) (fields.take 100) (r :: seen)).1,
         (serFields (serialize heap fuel) (fields.take 100) (r :: seen)).2) := by
  simp only [serialize, hobj]
  rw [if_neg hr]

theorem serList_seen_sub (f : JSVal → List Nat → SVal × List Nat)
    (hf : ∀ v s, s ⊆ (f v s).2) (l : List JSVal) (seen : List Nat) :
    seen ⊆ (serList f l seen).2 := by
  induction l generalizing seen with
  | nil => exact fun _ h => h
  | cons x xs ih => exact fun a ha => ih (f x seen).2 (hf x seen ha)

theorem serFields_seen_sub (f : JSVal → List Nat → SVal × List Nat)
    (hf : ∀ v s, s ⊆ (f v s).2) (l : List (String × JSVal)) (seen : List Nat) :
    seen ⊆ (serFields f l seen).2 := by
  induction l generalizing seen with
  | nil => exact fun _ h => h
  | cons kv xs ih =>
    obtain ⟨k, v⟩ := kv
    exact fun a ha => ih (f v seen).2 (hf v seen ha)

theorem serialize_seen_mono (heap : Heap) (fuel : Nat) :
    ∀ (v : JSVal) (seen : List Nat), seen ⊆ (serialize heap fuel v seen).2 := by
  induction fuel with
  | zero =>
    intro v seen
    cases v <;> exact fun _ h => h
  | succ fuel ih =>
    intro v seen
    cases v with
    | null => exact fun _ h => h
    | undef => exact fun _ h => h
    | bool b => exact fun _ h => h
    | num n => exact fun _ h => h
    | str s => exact fun _ h => h
    | func os => cases os <;> exact fun _ h => h
    | ref r =>
      cases hobj : (heap.get? r).getD (.obj []) with
      | arr elems =>
        rw [serialize_ref_arr heap fuel r seen elems hobj]
        exact serList_seen_sub _ ih _ _
      | obj fields =>
        by_cases hr : r ∈ seen
        · rw [serialize_obj_seen heap fuel r seen fields hobj hr]
          exact fun _ h => h
        · rw [serialize_obj_first heap fuel r seen fields hobj hr]
          exact fun a ha =>
            serFields_seen_sub _ ih _ _ (List.mem_cons_of_mem _ ha)

/-- C3 amended: detection is scoped per top-level call, but within one
call the seen set is shared across sibling branches and only ever grows:
an object enters the set when it is first serialized in the object
branch within the depth budget, an occurrence of an object already in
the set is replaced by the circular-reference sentinel (set unchanged)
even via a disjoint sibling path with no true cycle, and an object not
yet in the set is serialized as a real object at that occurrence and
added to the set. The final conjunct exhibits the disjoint-sibling
scenario: full serialization at the first occurrence, the sentinel at
the second. (A depth-truncated occurrence is never added to the set,
and arrays never enter it.) -/
theorem seen_set_governs_sentinel :
    (∀ (heap : Heap) (md cd r : Nat) (seen : List Nat)
        (fields : List (String × JSVal)),
        cd ≤ md → (heap.get? r).getD (.obj []) = .obj fields → r ∈ seen →
        safeSerialize heap (.ref r) md cd seen
          = (.str "<circular reference>", seen))
    ∧ (∀ (heap : Heap) (md cd r : Nat) (seen : List Nat)
        (fields : List (String × JSVal)),
        cd ≤ md → (heap.get? r).getD (.obj []) = .obj fields → r ∉ seen →
        (∃ out, (safeSerialize heap (.ref r) md cd seen).1 = SVal.obj out)
        ∧ r ∈ (safeSerialize heap (.ref r) md cd seen).2)
    ∧ (∀ (heap : Heap) (v : JSVal) (md cd : Nat) (seen : List Nat),
        seen ⊆ (safeSerialize heap v md cd seen).2)
    ∧ (∀ (n : Int) (kx ky ka : String),
        (safeSerialize [.obj [(kx, .ref 1), (ky, .ref 1)], .obj [(ka, .num n)]]
            (.ref 0) 3 0 []).1
          = .obj [(kx, .obj [(ka, .num n)]), (ky, .str "<circular reference>")]) := by
  refine ⟨fun heap md cd r seen fields hcd hobj hr => ?_,
    fun heap md cd r seen fields hcd hobj hr => ?_,
    fun heap v md cd seen => ?_, fun n kx ky ka => rfl⟩
  · have hf : md + 1 - cd = (md - cd) + 1 := by omega
    unfold safeSerialize
    rw [hf]
    exact serialize_obj_seen heap (md - cd) r seen fields hobj hr
  · have hf : md + 1 - cd = (md - cd) + 1 := by omega
    unfold safeSerialize
    rw [hf, serialize_obj_first heap (md - cd) r seen fields hobj hr]
    exact ⟨⟨_, rfl⟩,
      serFields_seen_sub _ (serialize_seen_mono heap (md - cd)) _ _
        (List.mem_cons_self r seen)⟩
  · unfold safeSerialize
    exact serialize_seen_mono heap _ v seen

/-- C3 witness: on a one-object heap, a visit at depth 1 with the object
already in the seen set yields the sentinel and leaves the set
unchanged, while a first visit at depth 0 with an empty seen set yields
a real object and records address 0 in the set. -/
theorem seen_set_governs_sentinel_witness :
    safeSerialize [.obj [("a", .num 1)]] (.ref 0) 3 1 [0]
      = (.str "<circular reference>", [0])
    ∧ ((∃ out, (safeSerialize [.obj [("a", .num 1)]] (.ref 0) 3 0 []).1
          = SVal.obj out)
      ∧ 0 ∈ (safeSerialize [.obj [("a", .num 1)]] (.ref 0) 3 0 []).2) :=
  ⟨seen_set_governs_sentinel.1 [.obj [("a", .num 1)]] 3 1 0 [0]
      [("a", .num 1)] (by decide) rfl (by decide),
   seen_set_governs_sentinel.2.1 [.obj [("a", .num 1)]] 3 0 0 []
      [("a", .num 1)] (by decide) rfl (by decide)⟩

/-- C8: with maxDepth 3, every non-primitive value met at recursion
depth 4 is replaced by the max-depth sentinel, while a reference met at
depth 3 or shallower is serialized as its real structure: an object
keeps its (first 100) keys and an array keeps its (first 100) elements. -/
theorem maxDepth_boundary :
    (∀ (heap : Heap) (v : JSVal) (seen : List Nat), isPrimitive v = false →
      (safeSerialize heap v 3 4 seen).1 = .str "<max depth reached>")
    ∧ (∀ (heap : Heap) (r : Nat) (fields : List (String × JSVal))
        (seen : List Nat) (cd : Nat),
        cd ≤ 3 → heap.get? r = some (.obj fields) → r ∉ seen →
        ∃ out, (safeSerialize heap (.ref r) 3 cd seen).1 = .obj out ∧
          out.map Prod.fst = (fields.take 100).map Prod.fst)
    ∧ (∀ (heap : Heap) (r : Nat) (elems : List JSVal)
        (seen : List Nat) (cd : Nat),
        cd ≤ 3 → heap.get? r = some (.arr elems) →
        ∃ out, (safeSerialize heap (.ref r) 3 cd seen).1 = .arr out ∧
          out.length = (elems.take 100).length) := by
  refine ⟨fun heap v seen h => ?_, fun heap r fields seen cd hcd hr hseen => ?_,
    fun heap r elems seen cd hcd hr => ?_⟩
  · exact congrArg Prod.fst (serialize_fuel0_nonprim heap v seen h)
  · have hf : 3 + 1 - cd = (3 - cd) + 1 := by omega
    unfold safeSerialize
    rw [hf]
    refine ⟨(serFields (serialize heap (3 - cd)) (fields.take 100) (r :: seen)).1,
      ?_, serFields_fst _ _ _⟩
    simp only [serialize, hr, Option.getD_some, if_neg hseen]
  · have hf : 3 + 1 - cd = (3 - cd) + 1 := by omega
    unfold safeSerialize
    rw [hf]
    refine ⟨(serList (serialize heap (3 - cd)) (elems.take 100) seen).1,
      ?_, by rw [serList_length, List.length_take]⟩
    simp only [serialize, hr, Option.getD_some]

/-- C8 witness: the depth-4 sentinel at a concrete reference, and the
real structure kept at depth 0 for a one-field object and a two-element
array. -/
theorem maxDepth_boundary_witness :
    (safeSerialize [] (.ref 0) 3 4 []).1 = .str "<max depth reached>"
    ∧ (∃ out, (safeSerialize [.obj [("a", .num 1)]] (.ref 0) 3 0 []).1 = .obj out ∧
        out.map Prod.fst = ([("a", JSVal.num 1)].take 100).map Prod.fst)
    ∧ (∃ out, (safeSerialize [.arr [.null, .num 2]] (.ref 0) 3 0 []).1 = .arr out ∧
        out.length = ([JSVal.null, JSVal.num 2].take 100).length) :=
  ⟨maxDepth_boundary.1 [] (.ref 0) [] rfl,
   maxDepth_boundary.2.1 [.obj [("a", .num 1)]] 0 [("a", .num 1)] [] 0
     (by decide) rfl (by decide),
   maxDepth_boundary.2.2 [.arr [.null, .num 2]] 0 [.null, .num 2] [] 0
     (by decide) rfl⟩

/-- C10: the primitive checks of safeSerialize precede its depth check,
so null, undefined, booleans, numbers and strings pass through unchanged
at every depth, even beyond maxDepth, while the max-depth sentinel is
produced exactly for the non-primitive values past the depth limit. -/
theorem primitives_bypass_depth_check :
    (∀ (heap : Heap) (md cd : Nat) (seen : List Nat),
        safeSerialize heap .null md cd seen = (.null, seen)
      ∧ safeSerialize heap .undef md cd seen = (.undef, seen))
    ∧ (∀ (heap : Heap) (md cd : Nat) (seen : List Nat) (b : Bool),
        safeSerialize heap (.bool b) md cd seen = (.bool b, seen))
    ∧ (∀ (heap : Heap) (md cd : Nat) (seen : List Nat) (n : Int),
        safeSerialize heap (.num n) md cd seen = (.num n, seen))
    ∧ (∀ (heap : Heap) (md cd : Nat) (seen : List Nat) (s : String),
        safeSerialize heap (.str s) md cd seen = (.str s, seen))
    ∧ (∀ (heap : Heap) (v : JSVal) (md cd : Nat) (seen : List Nat),
        cd > md → isPrimitive v = false →
        (safeSerialize heap v md cd seen).1 = .str "<max depth reached>") := by
  refine ⟨fun heap md cd seen => ⟨serialize_null heap _ seen, serialize_undef heap _ seen⟩,
    fun heap md cd seen b => serialize_bool heap _ seen b,
    fun heap md cd seen n => serialize_num heap _ seen n,
    fun heap md cd seen s => serialize_str heap _ seen s,
    fun heap v md cd seen hgt hnp => ?_⟩
  have h0 : md + 1 - cd = 0 := by omega
  unfold safeSerialize
  rw [h0, serialize_fuel0_nonprim heap v seen hnp]

/-- C10 witness: a number nested far beyond maxDepth passes through
unchanged, while a non-primitive at the same depth hits the sentinel. -/
theorem primitives_bypass_depth_check_witness :
    safeSerialize [] (.num 5) 3 10 [] = (.num 5, [])
    ∧ (safeSerialize [] (.func none) 3 10 []).1 = .str "<max depth reached>" :=
  ⟨primitives_bypass_depth_check.2.2.1 [] 3 10 [] 5,
   primitives_bypass_depth_check.2.2.2.2 [] (.func none) 3 10 [] (by decide) rfl⟩

theorem attemptReconnect_at_budget (s : MgrState)
    (h : maxReconnectAttempts ≤ s.reconnectAttempts) :
    attemptReconnect s
      = { s with errors := "Max reconnection attempts reached" :: s.errors } := by
  unfold attemptReconnect
  rw [if_neg (by omega)]

theorem step_scheduled_mono (s : MgrState) (e : WsEvent) :
    s.scheduledCount ≤ (step s e).scheduledCount := by
  cases e with
  | sockOpen => exact le_refl _
  | sockClose =>
    simp only [step, attemptReconnect]
    split <;> simp
  | sockError => exact le_refl _
  | timerFire =>
    simp only [step]
    split <;> simp [connectCall]
  | callConnect => exact le_refl _
  | callClose =>
    simp only [step, close]
    split <;> simp
  | callSend m =>
    simp only [step, sendMessage]
    split <;> simp

theorem step_budget (s : MgrState) (e : WsEvent) (he : e ≠ WsEvent.sockOpen) :
    (step s e).scheduledCount
        + (maxReconnectAttempts - (step s e).reconnectAttempts)
      ≤ s.scheduledCount + (maxReconnectAttempts - s.reconnectAttempts) := by
  cases e with
  | sockOpen => exact absurd rfl he
  | sockClose =>
    simp only [step, attemptReconnect]
    split
    next h => simp at h ⊢; omega
    next h => simp
  | sockError => exact le_refl _
  | timerFire =>
    simp only [step]
    split <;> simp [connectCall]
  | callConnect => exact le_refl _
  | callClose =>
    simp only [step, close]
    split <;> simp
  | callSend m =>
    simp only [step, sendMessage]
    split <;> simp

theorem runEvents_budget (s : MgrState) (es : List WsEvent)
    (h : WsEvent.sockOpen ∉ es) :
    (runEvents s es).scheduledCount
        + (maxReconnectAttempts - (runEvents s es).reconnectAttempts)
      ≤ s.scheduledCount + (maxReconnectAttempts - s.reconnectAttempts) := by
  induction es generalizing s with
  | nil => exact le_refl _
  | cons e tl ih =>
    simp only [List.mem_cons, not_or] at h
    exact le_trans (ih (step s e) h.2) (step_budget s e (fun hh => h.1 hh.symm))

/-- C5: along any event sequence containing no successful open, the
manager schedules at most maxReconnectAttempts - reconnectAttempts
further reconnects (so at most 5 from a fresh counter, and none once the
counter has reached 5), and every successful open resets the counter to
0, restoring the full budget. -/
theorem reconnect_budget_and_reset :
    (∀ (s : MgrState) (es : List WsEvent), WsEvent.sockOpen ∉ es →
        (runEvents s es).scheduledCount
          ≤ s.scheduledCount + (maxReconnectAttempts - s.reconnectAttempts))
    ∧ (∀ s : MgrState, maxReconnectAttempts ≤ s.reconnectAttempts →
        (step s .sockClose).scheduledCount = s.scheduledCount
      ∧ (step s .sockClose).pendingTimers = s.pendingTimers)
    ∧ (∀ s : MgrState, (step s .sockOpen).reconnectAttempts = 0) := by
  refine ⟨fun s es hno => ?_, fun s hge => ?_, fun s => rfl⟩
  · exact le_trans (Nat.le_add_right _ _) (runEvents_budget s es hno)
  · have h2 : step s .sockClose
        = { s with
            wsReady := if s.hasWs then .closed else s.wsReady,
            errors := "Max reconnection attempts reached" :: s.errors } := by
      show attemptReconnect _ = _
      exact attemptReconnect_at_budget _ hge
    rw [h2]
    exact ⟨rfl, rfl⟩

/-- C5 witness: from a freshly opened connection (counter 0, nothing yet
scheduled), six consecutive unexpected closes interleaved with the five
timer firings schedule at most 5 reconnects, and a successful open on a
counter at 5 resets it to 0. -/
theorem reconnect_budget_and_reset_witness :
    (runEvents (MgrState.mk true .opened 0 0 0 [] [] [])
        [.sockClose, .timerFire, .sockClose, .timerFire, .sockClose, .timerFire,
         .sockClose, .timerFire, .sockClose, .timerFire, .sockClose]).scheduledCount
      ≤ 0 + (maxReconnectAttempts - 0)
    ∧ ((step (MgrState.mk true .closed 5 0 5 [] [] []) .sockClose).scheduledCount
          = 5
      ∧ (step (MgrState.mk true .closed 5 0 5 [] [] []) .sockClose).pendingTimers
          = 0)
    ∧ (step (MgrState.mk true .closed 5 0 5 [] [] []) .sockOpen).reconnectAttempts
        = 0 :=
  ⟨reconnect_budget_and_reset.1 (MgrState.mk true .opened 0 0 0 [] [] []) _
      (by decide),
   reconnect_budget_and_reset.2.1 (MgrState.mk true .closed 5 0 5 [] [] [])
      (by decide),
   reconnect_budget_and_reset.2.2 (MgrState.mk true .closed 5 0 5 [] [] [])⟩

/-- C1: code-bug evidence. From an open connection with a fresh retry
counter, the caller runs close() (this.ws becomes null), then the close
event of the closed socket fires. Because the onclose handler calls
attemptReconnect unconditionally and close() marks nothing, a reconnect
timer is scheduled (counter 0 < 5), contradicting the claim that a
caller-initiated close never leads to a scheduled reconnect. -/
theorem close_then_close_event_schedules_reconnect :
    (step (step (MgrState.mk true .opened 0 0 0 [] [] []) .callClose)
        .sockClose).pendingTimers = 1
    ∧ (step (step (MgrState.mk true .opened 0 0 0 [] [] []) .callClose)
        .sockClose).scheduledCount = 1
    ∧ (step (MgrState.mk true .opened 0 0 0 [] [] []) .callClose).hasWs = false :=
  ⟨rfl, rfl, rfl⟩

/-- C9: whenever the manager is in any state other than an open socket
(no socket at all, or a socket that is connecting, closing or closed),
sendMessage only appends a console error: the message is not transmitted,
nothing is queued, and no other field of the state changes. The model is
a total function, so no exception reaches the caller. -/
theorem sendMessage_not_connected (s : MgrState) (m : String)
    (h : ¬(s.hasWs = true ∧ s.wsReady = ReadyState.opened)) :
    step s (.callSend m)
      = { s with errors := "WebSocket is not connected" :: s.errors } := by
  show sendMessage s m = _
  unfold sendMessage
  rw [if_neg h]

/-- C9 witness: sending while fully disconnected only logs the error. -/
theorem sendMessage_not_connected_witness :
    step (MgrState.mk false .closed 0 0 0 [] [] []) (.callSend "hello")
      = MgrState.mk false .closed 0 0 0 [] [] ["WebSocket is not connected"] := by
  rw [sendMessage_not_connected _ "hello" (by decide)]

theorem map_space_colon_roundtrip (l : List Char) (hs : ' ' ∉ l) :
    (l.map (fun c => if c = ':' then ' ' else c)).map
        (fun c => if c = ' ' then ':' else c) = l := by
  induction l with
  | nil => rfl
  | cons c tl ih =>
    simp only [List.mem_cons, not_or] at hs
    simp only [List.map_cons]
    rw [ih hs.2]
    congr 1
    have hc : c ≠ ' ' := fun hh => hs.1 hh.symm
    by_cases h1 : c = ':'
    · simp [h1]
    · simp [if_neg h1, if_neg hc]

/-- C6: for every host command identifier containing a colon but no
literal space, the reverse substitution undoes the forward one, so the
catalog tool id round-trips back to the native command id. -/
theorem toolId_roundtrip (id : String) (_hc : ':' ∈ id.data)
    (hs : ' ' ∉ id.data) :
    reverseId (forwardId id) = id := by
  cases id with
  | mk l => exact congrArg String.mk (map_space_colon_roundtrip l hs)

/-- C6 witness at the command id notebook:run. -/
theorem toolId_roundtrip_witness :
    reverseId (forwardId "notebook:run") = "notebook:run" :=
  toolId_roundtrip "notebook:run" (by decide) (by decide)

/-- A host registry with one command, notebook:run, whose execution
succeeds with the number 42. -/
def sampleRegistry : CommandRegistry :=
  ⟨["notebook:run"], fun _ _ => .ok [] (.num 42)⟩

/-- C2: code-bug evidence. The catalog derives tool id notebook run for
the host command notebook:run; but applyToolLocal, handed that catalog
tool id, fails with Command not found because it never reverses the
space substitution, so the host command the descriptor was derived from
is not invoked and no success entry is logged. The peer-facing path
applyToolFromServer on the very same tool id does reverse the
substitution and succeeds, returning the serialized result 42. -/
theorem applyToolLocal_skips_id_reversal :
    catalogIds sampleRegistry = ["notebook run"]
    ∧ (applyToolLocal sampleRegistry "notebook run" .null).success = false
    ∧ (applyToolLocal sampleRegistry "notebook run" .null).error
        = some "Command not found: notebook run"
    ∧ applyToolFromServer sampleRegistry "notebook run" .null (some "e1")
        = ⟨"tool_result", "notebook run", some "e1", true, some (.num 42), none⟩ :=
  ⟨rfl, rfl, rfl, rfl⟩

/-- C4: an inbound apply_tool whose tool id reverses to a command id the
host does not know is answered by a tool_result envelope with success
false, the peer-supplied execution id passed through unchanged, the
original tool id echoed, and the error string Command not found followed
by the native command id; the dispatcher is a total function, so no
exception reaches the transport. -/
theorem applyToolFromServer_unknown_command (reg : CommandRegistry)
    (toolId : String) (params : JSVal) (executionId : Option String)
    (h : reverseId toolId ∉ reg.commandIds) :
    applyToolFromServer reg toolId params executionId
      = ⟨"tool_result", toolId, executionId, false, none,
          some ("Command not found: " ++ reverseId toolId)⟩ := by
  simp only [applyToolFromServer]
  rw [if_neg h]

/-- C4 witness: the spec scenario with tool id nonexistent cmd and
execution id e2. -/
theorem applyToolFromServer_unknown_command_witness :
    applyToolFromServer sampleRegistry "nonexistent cmd" .null (some "e2")
      = ⟨"tool_result", "nonexistent cmd", some "e2", false, none,
          some "Command not found: nonexistent:cmd"⟩ :=
  (applyToolFromServer_unknown_command sampleRegistry "nonexistent cmd" .null
      (some "e2") (by decide)).trans rfl
